import Mathlib

/-!
Shallow embedding of the deck-construction engine of the ai-mtg-deckbuilder
repository, covering `services/deck_constructor.py` (DeckConstructorService)
and `rag/mana_base_calculator.py` (ManaBaseCalculator).

Python dictionaries are embedded as insertion-ordered association lists
(`List (String × α)`); Python runtime errors (TypeError, KeyError,
ZeroDivisionError, IndexError) are embedded as `Except PyErr`.  Python
floats are embedded as exact rationals (`ℚ`): every numeric literal and
every arithmetic step appearing in the translated code keeps the same
value under both semantics at the scales exercised here.
-/

/-- Python runtime errors that the translated code can raise. -/
inductive PyErr where
  | typeError : PyErr
  | keyError : String → PyErr
  | zeroDivisionError : PyErr
  | indexError : PyErr
deriving DecidableEq

namespace PyDict

/-- `d[k]` as an option: first entry whose key equals `k`
(a Python dict holds each key once; lookups read that entry). -/
def get {α : Type} : List (String × α) → String → Option α
  | [], _ => none
  | (k, v) :: rest, key => if key = k then some v else get rest key

/-- `d.get(k, dflt)`. -/
def getD {α : Type} (d : List (String × α)) (key : String) (dflt : α) : α :=
  (get d key).getD dflt

/-- `k in d`. -/
def contains {α : Type} (d : List (String × α)) (key : String) : Bool :=
  (get d key).isSome

/-- `d[k] = v`: overwrite the entry if the key is present, else append
(Python dicts keep insertion order and update in place). -/
def set {α : Type} : List (String × α) → String → α → List (String × α)
  | [], key, v => [(key, v)]
  | (k, w) :: rest, key, v =>
      if k = key then (k, v) :: rest else (k, w) :: set rest key v

/-- `list(d.keys())`. -/
def keys {α : Type} (d : List (String × α)) : List String :=
  d.map Prod.fst

/-- `sum(d.values())`. -/
def sumValues (d : List (String × Int)) : Int :=
  (d.map Prod.snd).sum

end PyDict

/-- The card record fields consumed by the translated code
(`card.get("types", [])`, `card.get("supertypes", [])`, `card["legality"]`,
`card["name"]`).  A missing `"legality"` key is `none`; a card-database
lookup that returns no (truthy) record is embedded as `Option.none` at the
lookup function. -/
structure Card where
  name : String
  types : List String
  supertypes : List String
  legality : Option (List (String × String))
deriving DecidableEq

/-- Python `str.lower()` restricted to ASCII, which covers every format and
strategy name the code compares (kernel-computable, unlike `String.toLower`). -/
def pyCharLower (c : Char) : Char :=
  if 'A' ≤ c ∧ c ≤ 'Z' then Char.ofNat (c.toNat + 32) else c

def pyLower (s : String) : String :=
  String.mk (s.data.map pyCharLower)

/-- `_get_primary_type` (services/deck_constructor.py:99-110): first match in
the fixed precedence list, else "Other". -/
def primaryTypesList : List String :=
  ["Creature", "Planeswalker", "Instant", "Sorcery", "Artifact", "Enchantment", "Land"]

def getPrimaryType (card : Card) : String :=
  match primaryTypesList.find? (fun ptype => card.types.contains ptype) with
  | some ptype => ptype
  | none => "Other"

/-- `defaultdict(list)` append used by `_group_cards_by_type`: extend the
existing group for the key, else create the group at the end. -/
def groupInsert : List (String × List Card) → String → Card → List (String × List Card)
  | [], key, c => [(key, [c])]
  | (k, cs) :: rest, key, c =>
      if k = key then (k, cs ++ [c]) :: rest else (k, cs) :: groupInsert rest key c

/-- `_group_cards_by_type` (services/deck_constructor.py:89-97). -/
def groupCardsByType (cardPool : List Card) : List (String × List Card) :=
  cardPool.foldl (fun groups c => groupInsert groups (getPrimaryType c) c) []

/-- Python `int()` applied to a nonnegative float: truncation toward zero. -/
def intTrunc (q : ℚ) : Int :=
  if 0 ≤ q then Int.floor q else Int.ceil q

/-- `_determine_deck_composition` (services/deck_constructor.py:112-174).
The dict is initialized with the seven categories (in this order) and the
strategy branch overwrites the six non-land entries in place, so the result
keeps the initialization order.  Note the source's degenerate conditionals:
`36 if format_name.lower() == "commander" else 36` and
`24 if ... else 24`. -/
def determineDeckComposition (primaryStrategy secondaryStrategy formatName : String) :
    List (String × Int) :=
  let nonLandCount : ℚ := if (pyLower formatName) = "commander" then 36 else 36
  let landCount : Int := if (pyLower formatName) = "commander" then 24 else 24
  let composition : List (String × Int) :=
    if (pyLower primaryStrategy) = "aggro" then
      [("Creature", intTrunc (nonLandCount * 0.6)),
       ("Planeswalker", intTrunc (nonLandCount * 0.05)),
       ("Instant", intTrunc (nonLandCount * 0.15)),
       ("Sorcery", intTrunc (nonLandCount * 0.1)),
       ("Artifact", intTrunc (nonLandCount * 0.05)),
       ("Enchantment", intTrunc (nonLandCount * 0.05)),
       ("Land", 0)]
    else if (pyLower primaryStrategy) = "control" then
      [("Creature", intTrunc (nonLandCount * 0.25)),
       ("Planeswalker", intTrunc (nonLandCount * 0.1)),
       ("Instant", intTrunc (nonLandCount * 0.3)),
       ("Sorcery", intTrunc (nonLandCount * 0.2)),
       ("Artifact", intTrunc (nonLandCount * 0.05)),
       ("Enchantment", intTrunc (nonLandCount * 0.1)),
       ("Land", 0)]
    else if (pyLower primaryStrategy) = "midrange" then
      [("Creature", intTrunc (nonLandCount * 0.45)),
       ("Planeswalker", intTrunc (nonLandCount * 0.1)),
       ("Instant", intTrunc (nonLandCount * 0.2)),
       ("Sorcery", intTrunc (nonLandCount * 0.15)),
       ("Artifact", intTrunc (nonLandCount * 0.05)),
       ("Enchantment", intTrunc (nonLandCount * 0.05)),
       ("Land", 0)]
    else if (pyLower primaryStrategy) = "combo" then
      [("Creature", intTrunc (nonLandCount * 0.3)),
       ("Planeswalker", intTrunc (nonLandCount * 0.05)),
       ("Instant", intTrunc (nonLandCount * 0.25)),
       ("Sorcery", intTrunc (nonLandCount * 0.2)),
       ("Artifact", intTrunc (nonLandCount * 0.1)),
       ("Enchantment", intTrunc (nonLandCount * 0.1)),
       ("Land", 0)]
    else
      [("Creature", intTrunc (nonLandCount * 0.4)),
       ("Planeswalker", intTrunc (nonLandCount * 0.05)),
       ("Instant", intTrunc (nonLandCount * 0.2)),
       ("Sorcery", intTrunc (nonLandCount * 0.15)),
       ("Artifact", intTrunc (nonLandCount * 0.1)),
       ("Enchantment", intTrunc (nonLandCount * 0.1)),
       ("Land", 0)]
  -- secondary strategy branch is a `pass` in the source
  PyDict.set composition "Land" landCount

/-- `max_copies = 1 if format_name.lower() == "commander" else 4`
(services/deck_constructor.py:186 and :237). -/
def maxCopiesOf (formatName : String) : Int :=
  if (pyLower formatName) = "commander" then 1 else 4

/-- `min_cards = 100 if format_name.lower() == "commander" else 60`
(services/deck_constructor.py:236). -/
def minCardsOf (formatName : String) : Int :=
  if (pyLower formatName) = "commander" then 100 else 60

/-- Stable descending insertion used to embed
`sorted(cards, key=lambda x: synergy_scores.get(x["name"], 0), reverse=True)`:
an element is placed before the first element with a key not above its own,
which keeps equal-key elements in their original order, exactly as Python's
stable sort with `reverse=True` does. -/
def insertDesc (key : Card → ℚ) (c : Card) : List Card → List Card
  | [] => [c]
  | d :: rest => if key d ≤ key c then c :: d :: rest else d :: insertDesc key c rest

def sortedBySynergyDesc (synergyScores : List (String × ℚ)) (cards : List Card) : List Card :=
  cards.foldr (insertDesc (fun c => PyDict.getD synergyScores c.name 0)) []

/-- The pass of `_select_cards` (services/deck_constructor.py:191-196) that
accounts for cards already in the deck: `added_counts[card_type] += deck[card_name]`
raises KeyError when the card's primary type is not a key of `added_counts`. -/
def seedAddedCounts (lookup : String → Option Card) :
    List (String × Int) → List (String × Int) → Except PyErr (List (String × Int))
  | [], addedCounts => .ok addedCounts
  | (cardName, qty) :: rest, addedCounts =>
      match lookup cardName with
      | none => seedAddedCounts lookup rest addedCounts
      | some cardData =>
          let cardType := getPrimaryType cardData
          match PyDict.get addedCounts cardType with
          | none => .error (.keyError cardType)
          | some v => seedAddedCounts lookup rest (PyDict.set addedCounts cardType (v + qty))

/-- The inner loop of `_select_cards` (services/deck_constructor.py:212-229)
over one sorted card group; a `break` is an `.ok` return of the current state.
`added_counts[card_type]` and `composition[card_type]` raise KeyError when the
group's type is absent (the "Other" group). -/
def selectFromGroup (maxCopies : Int) (cardType : String) (synergyScores : List (String × ℚ))
    (composition : List (String × Int)) :
    List Card → List (String × Int) → List (String × Int) →
    Except PyErr (List (String × Int) × List (String × Int))
  | [], deck, addedCounts => .ok (deck, addedCounts)
  | card :: rest, deck, addedCounts =>
      match PyDict.get addedCounts cardType with
      | none => .error (.keyError cardType)
      | some acv =>
          match PyDict.get composition cardType with
          | none => .error (.keyError cardType)
          | some compv =>
              if compv ≤ acv then .ok (deck, addedCounts)
              else if PyDict.contains deck card.name then
                selectFromGroup maxCopies cardType synergyScores composition rest deck addedCounts
              else
                let deck1 := PyDict.set deck card.name 1
                let addedCounts1 := PyDict.set addedCounts cardType (acv + 1)
                if (0.8 : ℚ) < PyDict.getD synergyScores card.name 0 then
                  let additionalCopies := min (maxCopies - 1) (compv - (acv + 1))
                  let deck2 := PyDict.set deck1 card.name (PyDict.getD deck1 card.name 0 + additionalCopies)
                  let addedCounts2 := PyDict.set addedCounts1 cardType (acv + 1 + additionalCopies)
                  selectFromGroup maxCopies cardType synergyScores composition rest deck2 addedCounts2
                else
                  selectFromGroup maxCopies cardType synergyScores composition rest deck1 addedCounts1

/-- The outer loop of `_select_cards` (services/deck_constructor.py:199-229)
over `card_groups.items()`, skipping the "Land" group. -/
def selectGroups (maxCopies : Int) (synergyScores : List (String × ℚ))
    (composition : List (String × Int)) :
    List (String × List Card) → List (String × Int) → List (String × Int) →
    Except PyErr (List (String × Int) × List (String × Int))
  | [], deck, addedCounts => .ok (deck, addedCounts)
  | (cardType, cards) :: rest, deck, addedCounts =>
      if cardType = "Land" then
        selectGroups maxCopies synergyScores composition rest deck addedCounts
      else
        match selectFromGroup maxCopies cardType synergyScores composition
            (sortedBySynergyDesc synergyScores cards) deck addedCounts with
        | .error e => .error e
        | .ok (deck1, addedCounts1) =>
            selectGroups maxCopies synergyScores composition rest deck1 addedCounts1

/-- `_select_cards` (services/deck_constructor.py:176-231). -/
def selectCards (lookup : String → Option Card) (existingDeck : List (String × Int))
    (cardGroups : List (String × List Card)) (synergyScores : List (String × ℚ))
    (composition : List (String × Int)) (formatName : String) :
    Except PyErr (List (String × Int)) :=
  let maxCopies := maxCopiesOf formatName
  let addedCounts0 := composition.map (fun p => (p.1, (0 : Int)))
  match seedAddedCounts lookup existingDeck addedCounts0 with
  | .error e => .error e
  | .ok addedCounts =>
      match selectGroups maxCopies synergyScores composition cardGroups existingDeck addedCounts with
      | .error e => .error e
      | .ok (deck, _) => .ok deck

/-- `_is_card_legal` (services/deck_constructor.py:292-297). -/
def isCardLegal (card : Card) (formatName : String) : Bool :=
  match card.legality with
  | some legality => PyDict.getD legality (pyLower formatName) "not_legal" ≠ "not_legal"
  | none => true

/-- One iteration of the pinned-card seeding loop of `construct_deck`
(services/deck_constructor.py:40-43): a name is added at quantity 1 when the
card database returns a (truthy) record for it and the legality check passes. -/
def seedStep (lookup : String → Option Card) (formatName : String)
    (deck : List (String × Int)) (cardName : String) : List (String × Int) :=
  match lookup cardName with
  | some cardData =>
      if isCardLegal cardData formatName then PyDict.set deck cardName 1 else deck
  | none => deck

/-- The pinned-card seeding loop of `construct_deck`
(services/deck_constructor.py:38-43). -/
def seedSpecificCards (lookup : String → Option Card) (specificCards : List String)
    (formatName : String) : List (String × Int) :=
  specificCards.foldl (seedStep lookup formatName) []

/-- `construct_deck` (services/deck_constructor.py:18-87).  The synergy scores
are an awaited external collaborator result and enter as a parameter.  At
line 72 the source calls `self.mana_base_calculator.calculate_mana_base(deck,
deck_params["colors"], format_name)` with three positional arguments, but
`ManaBaseCalculator.calculate_mana_base` (rag/mana_base_calculator.py:5)
requires four (`deck_colors`, `format_name`, `spell_count`,
`mana_requirements`), so Python raises `TypeError: missing 1 required
positional argument` on every call that reaches this line (and even with
matching arity the coroutine is never awaited, so `deck.update` on it would
raise TypeError as well); lines 78-87 are unreachable. -/
def constructDeck (lookup : String → Option Card) (synergyScores : List (String × ℚ))
    (cardPool : List Card) (primaryStrategy secondaryStrategy : String)
    (deckColors : List String) (formatName : String)
    (specificCards : Option (List String)) : Except PyErr (List (String × Int)) :=
  let deck : List (String × Int) :=
    match specificCards with
    | none => []
    | some names => seedSpecificCards lookup names formatName
  let cardGroups := groupCardsByType cardPool
  let composition := determineDeckComposition primaryStrategy secondaryStrategy formatName
  match selectCards lookup deck cardGroups synergyScores composition formatName with
  | .error e => .error e
  | .ok _ =>
      let _ := deckColors
      .error .typeError

/-- `_is_basic_land` (services/deck_constructor.py:299-302). -/
def isBasicLand (cardName : String) : Bool :=
  ["Plains", "Island", "Swamp", "Mountain", "Forest"].contains cardName

/-- One iteration of the top-up loop of `_adjust_quantities`
(services/deck_constructor.py:246-258).  The `break` at line 247-248 is
embedded as a no-op guard (`current_size` never decreases, so once it reaches
`min_cards` every remaining iteration does nothing).  The inner `while` adds
one copy at a time while `deck[card_name] < max_copies and current_size <
min_cards`, i.e. it adds exactly `max 0 (min (max_copies - q) (min_cards -
cur))` copies. -/
def adjustStep (lookup : String → Option Card) (maxCopies minCards : Int)
    (st : List (String × Int) × Int) (cardName : String) : List (String × Int) × Int :=
  let (deck, cur) := st
  if minCards ≤ cur then st
  else
    let isBasic :=
      match lookup cardName with
      | some cardData => cardData.supertypes.contains "Basic"
      | none => false
    if isBasic then st
    else
      let q := PyDict.getD deck cardName 0
      let k := max 0 (min (maxCopies - q) (minCards - cur))
      (PyDict.set deck cardName (q + k), cur + k)

/-- The basic-land round-robin of `_adjust_quantities`
(services/deck_constructor.py:277-282): the `while current_size < min_cards`
loop runs exactly `min_cards - current_size` times, adding one copy of
`basic_lands[land_index % len(basic_lands)]` per iteration. -/
def roundRobin (basicLands : List String) :
    List (String × Int) → Nat → Nat → List (String × Int)
  | deck, 0, _ => deck
  | deck, Nat.succ n, landIndex =>
      let landName := basicLands.getD (landIndex % basicLands.length) ""
      roundRobin basicLands
        (PyDict.set deck landName (PyDict.getD deck landName 0 + 1)) n (landIndex + 1)

/-- The top-up phase of `_adjust_quantities`
(services/deck_constructor.py:239-258), returning the deck together with the
tracked `current_size`. -/
def adjustPhase1 (lookup : String → Option Card) (maxCopies minCards : Int)
    (deck : List (String × Int)) : List (String × Int) × Int :=
  let cur := PyDict.sumValues deck
  if cur < minCards then
    (PyDict.keys deck).foldl (adjustStep lookup maxCopies minCards) (deck, cur)
  else (deck, cur)

/-- The basic-land phase of `_adjust_quantities`
(services/deck_constructor.py:260-284): when the deck is still short and holds
no basic land, five zero-quantity placeholders are created and the round-robin
then adds the missing `min_cards - current_size` lands one at a time. -/
def adjustPhase2 (minCards : Int) (st : List (String × Int) × Int) :
    List (String × Int) :=
  let deck := st.1
  let cur := st.2
  if cur < minCards then
    let basicLands := (PyDict.keys deck).filter isBasicLand
    if basicLands.isEmpty then
      roundRobin ["Plains", "Island", "Swamp", "Mountain", "Forest"]
        (PyDict.set (PyDict.set (PyDict.set (PyDict.set (PyDict.set deck
          "Plains" 0) "Island" 0) "Swamp" 0) "Mountain" 0) "Forest" 0)
        ((minCards - cur).toNat) 0
    else
      roundRobin basicLands deck ((minCards - cur).toNat) 0
  else deck

/-- `_adjust_quantities` (services/deck_constructor.py:233-284). -/
def adjustQuantities (lookup : String → Option Card) (deck : List (String × Int))
    (formatName : String) : List (String × Int) :=
  adjustPhase2 (minCardsOf formatName)
    (adjustPhase1 lookup (maxCopiesOf formatName) (minCardsOf formatName) deck)

/-- Python `round` on a value our rational embedding represents exactly:
nearest integer, ties to the even integer (banker's rounding). -/
def pyRound (q : ℚ) : Int :=
  let f := Int.floor q
  let frac := q - f
  if frac < 1 / 2 then f
  else if 1 / 2 < frac then f + 1
  else if f % 2 = 0 then f else f + 1

/-- Python `//` (floor division) on integers. -/
def pyFloorDiv (a b : Int) : Int :=
  Int.fdiv a b

/-- Python list slice `l[:n]`: the first `n` elements for `n ≥ 0`, and all
but the last `-n` elements for negative `n` (clamped at the empty list). -/
def pySliceTo {α : Type} (l : List α) (n : Int) : List α :=
  if 0 ≤ n then l.take n.toNat else l.take ((l.length + n).toNat)

/-- The `format_base` dict lookup with default 24
(rag/mana_base_calculator.py:76-84); the argument is already lower-cased. -/
def formatBaseLookup (formatNameLower : String) : Int :=
  if formatNameLower = "standard" then 24
  else if formatNameLower = "modern" then 22
  else if formatNameLower = "commander" then 38
  else if formatNameLower = "legacy" then 20
  else if formatNameLower = "vintage" then 18
  else 24

/-- `_calculate_total_land_count` (rag/mana_base_calculator.py:73-90).
`avg_cmc = sum(mana_requirements.values()) / len(mana_requirements)` raises
ZeroDivisionError when the requirements dict is empty. -/
def calculateTotalLandCount (spellCount : Int) (formatName : String)
    (manaRequirements : List (String × ℚ)) : Except PyErr Int :=
  let _ := spellCount
  let baseCount := formatBaseLookup (pyLower formatName)
  if manaRequirements.length = 0 then .error .zeroDivisionError
  else
    let avgCmc : ℚ := (manaRequirements.map Prod.snd).sum / (manaRequirements.length : ℚ)
    .ok (baseCount + pyRound ((avgCmc - 5 / 2) * 2))

/-- A land record as consumed by `_distribute_lands`: only `land["name"]`
is read there. -/
structure Land where
  name : String
deriving DecidableEq

/-- The `land_categories` dict built by `calculate_mana_base`
(rag/mana_base_calculator.py:15-23); all seven keys are always present. -/
structure LandCategories where
  dual_lands : List Land
  fetch_lands : List Land
  shock_lands : List Land
  basic_lands : List Land
  utility_lands : List Land
  tri_lands : List Land
  pain_lands : List Land
deriving DecidableEq

def emptyLandCategories : LandCategories :=
  ⟨[], [], [], [], [], [], []⟩

/-- `distribution[land["name"]] = distribution.get(land["name"], 0) + 1`. -/
def addOneLand (distribution : List (String × Int)) (land : Land) : List (String × Int) :=
  PyDict.set distribution land.name (PyDict.getD distribution land.name 0 + 1)

/-- `_distribute_lands` (rag/mana_base_calculator.py:92-130).
The `color_proportions` comprehension divides by `total_pips` once per
declared color, so it raises ZeroDivisionError exactly when the color list is
non-empty and the total pips are zero; with an empty color list the
comprehension is empty and the mono-color branch then raises IndexError at
`deck_colors[0]`. -/
def distributeLands (landCategories : LandCategories) (totalLandCount : Int)
    (deckColors : List String) (manaRequirements : List (String × ℚ)) :
    Except PyErr (List (String × Int)) :=
  let totalPips : ℚ := (manaRequirements.map Prod.snd).sum
  if totalPips = 0 ∧ deckColors ≠ [] then .error .zeroDivisionError
  else
    let colorProportions : List (String × ℚ) :=
      deckColors.map (fun color => (color, PyDict.getD manaRequirements color 0 / totalPips))
    if 1 < deckColors.length then
      let dualLandCount := min 12 (pyFloorDiv totalLandCount 3)
      let distribution := (pySliceTo landCategories.dual_lands dualLandCount).foldl addOneLand []
      let fetchLandCount := min 8 (pyFloorDiv totalLandCount 4)
      let distribution := (pySliceTo landCategories.fetch_lands fetchLandCount).foldl addOneLand distribution
      let remaining := totalLandCount - PyDict.sumValues distribution
      let distribution := deckColors.foldl
        (fun dist color =>
          let basicName := "Basic " ++ color
          let count := pyRound ((remaining : ℚ) * PyDict.getD colorProportions color 0)
          PyDict.set dist basicName (PyDict.getD dist basicName 0 + count))
        distribution
      .ok distribution
    else
      match deckColors with
      | [] => .error .indexError
      | color0 :: _ =>
          let utilityCount := min 4 (pyFloorDiv totalLandCount 6)
          let distribution := (pySliceTo landCategories.utility_lands utilityCount).foldl addOneLand []
          let remaining := totalLandCount - PyDict.sumValues distribution
          let basicName := "Basic " ++ color0
          .ok (PyDict.set distribution basicName (PyDict.getD distribution basicName 0 + remaining))

/-- A minimal creature card used as a concrete evaluation fixture. -/
def bearCard : Card :=
  ⟨"Bear", ["Creature"], [], none⟩

theorem PyDict.get_set {α : Type} (d : List (String × α)) (k : String) (v : α) (k' : String) :
    PyDict.get (PyDict.set d k v) k' = if k' = k then some v else PyDict.get d k' := by
  induction d with
  | nil => simp [PyDict.set, PyDict.get]
  | cons hd tl ih =>
      obtain ⟨k1, v1⟩ := hd
      by_cases h1 : k1 = k
      · subst h1
        by_cases h2 : k' = k1 <;> simp [PyDict.set, PyDict.get, h2]
      · by_cases h2 : k' = k1
        · have h3 : ¬ k' = k := by rw [h2]; exact h1
          simp [PyDict.set, PyDict.get, h1, h2, h3]
        · simp [PyDict.set, PyDict.get, h1, h2, ih]

theorem PyDict.get_isSome_of_mem_keys {α : Type} (d : List (String × α)) (k : String)
    (h : k ∈ PyDict.keys d) : (PyDict.get d k).isSome = true := by
  induction d with
  | nil => simp [PyDict.keys] at h
  | cons hd tl ih =>
      obtain ⟨k1, v1⟩ := hd
      by_cases h2 : k = k1
      · simp [PyDict.get, h2]
      · simp [PyDict.keys] at h
        rcases h with h | h
        · exact absurd h h2
        · simpa [PyDict.get, h2] using ih (by simpa [PyDict.keys] using h)

/-- Summing after `d[k] = d.get(k, 0) + x` adds exactly `x` to the total. -/
theorem PyDict.sumValues_set_getD_add (d : List (String × Int)) (k : String) (x : Int) :
    PyDict.sumValues (PyDict.set d k (PyDict.getD d k 0 + x)) = PyDict.sumValues d + x := by
  induction d with
  | nil => simp [PyDict.set, PyDict.sumValues, PyDict.getD, PyDict.get]
  | cons hd tl ih =>
      obtain ⟨k1, v1⟩ := hd
      by_cases h : k1 = k
      · subst h
        simp [PyDict.set, PyDict.sumValues, PyDict.getD, PyDict.get]
        ring
      · have h' : ¬ k = k1 := fun hk => h hk.symm
        simp [PyDict.set, PyDict.sumValues, PyDict.getD, PyDict.get, h, h'] at ih ⊢
        omega

theorem intTrunc_eq_of (q : ℚ) (z : Int) (h0 : 0 ≤ q) (h1 : (z : ℚ) ≤ q)
    (h2 : q < z + 1) : intTrunc q = z := by
  unfold intTrunc
  rw [if_pos h0]
  exact Int.floor_eq_iff.mpr ⟨h1, h2⟩

theorem pyRound_eq_of (q : ℚ) (z : Int) (h1 : (z : ℚ) ≤ q) (h2 : q < z + 1)
    (h3 : q - z < 1 / 2) : pyRound q = z := by
  have hf : Int.floor q = z := Int.floor_eq_iff.mpr ⟨h1, h2⟩
  unfold pyRound
  rw [hf, if_pos h3]

theorem intTrunc_36_06 : intTrunc ((36 : ℚ) * 0.6) = 21 :=
  intTrunc_eq_of _ _ (by norm_num) (by norm_num) (by norm_num)

theorem intTrunc_36_005 : intTrunc ((36 : ℚ) * 0.05) = 1 :=
  intTrunc_eq_of _ _ (by norm_num) (by norm_num) (by norm_num)

theorem intTrunc_36_015 : intTrunc ((36 : ℚ) * 0.15) = 5 :=
  intTrunc_eq_of _ _ (by norm_num) (by norm_num) (by norm_num)

theorem intTrunc_36_01 : intTrunc ((36 : ℚ) * 0.1) = 3 :=
  intTrunc_eq_of _ _ (by norm_num) (by norm_num) (by norm_num)

theorem intTrunc_36_025 : intTrunc ((36 : ℚ) * 0.25) = 9 :=
  intTrunc_eq_of _ _ (by norm_num) (by norm_num) (by norm_num)

theorem intTrunc_36_03 : intTrunc ((36 : ℚ) * 0.3) = 10 :=
  intTrunc_eq_of _ _ (by norm_num) (by norm_num) (by norm_num)

theorem intTrunc_36_02 : intTrunc ((36 : ℚ) * 0.2) = 7 :=
  intTrunc_eq_of _ _ (by norm_num) (by norm_num) (by norm_num)

theorem intTrunc_36_045 : intTrunc ((36 : ℚ) * 0.45) = 16 :=
  intTrunc_eq_of _ _ (by norm_num) (by norm_num) (by norm_num)

theorem intTrunc_36_04 : intTrunc ((36 : ℚ) * 0.4) = 14 :=
  intTrunc_eq_of _ _ (by norm_num) (by norm_num) (by norm_num)

/-- C1: the claim says `construct_deck` always returns a decklist and never
raises.  In the source it always raises: the call at
services/deck_constructor.py:72 passes three positional arguments to
`ManaBaseCalculator.calculate_mana_base`, which requires four, so every call
that reaches the mana-base step dies with a TypeError (and any call that
feeds a pool or pinned card classified "Other" dies earlier with a KeyError).
This theorem evaluates the embedded orchestrator: it returns an error for
every input. -/
theorem c1_construct_deck_always_raises (lookup : String → Option Card)
    (synergyScores : List (String × ℚ)) (cardPool : List Card)
    (primaryStrategy secondaryStrategy : String) (deckColors : List String)
    (formatName : String) (specificCards : Option (List String)) :
    (constructDeck lookup synergyScores cardPool primaryStrategy secondaryStrategy
      deckColors formatName specificCards).isOk = false := by
  unfold constructDeck
  cases h : selectCards lookup
      (match specificCards with
       | none => []
       | some names => seedSpecificCards lookup names formatName)
      (groupCardsByType cardPool) synergyScores
      (determineDeckComposition primaryStrategy secondaryStrategy formatName)
      formatName with
  | error e => simp [h, Except.isOk, Except.toBool]
  | ok d => simp [h, Except.isOk, Except.toBool]

/-- C2 counterexample: for strategy "aggro" and format "standard" the
composition's values sum to 56, not the format's 60-card deck size. -/
theorem c2_composition_sum_counterexample :
    PyDict.sumValues (determineDeckComposition "aggro" "" "standard") = 56 ∧
      (56 : Int) ≠ 60 := by
  constructor
  · simp only [determineDeckComposition, ite_self, intTrunc_36_06, intTrunc_36_005,
      intTrunc_36_015, intTrunc_36_01, intTrunc_36_025, intTrunc_36_03, intTrunc_36_02,
      intTrunc_36_045, intTrunc_36_04]
    decide
  · decide

/-- C2 amended: for every primary strategy, secondary strategy and format
name, the composition's values sum to 56 when the lower-cased primary
strategy is "aggro" and to 57 otherwise — never the format's deck size; the
`int()` truncation losses are not reabsorbed by any category and the total
does not depend on the format. -/
theorem c2_composition_sum_amended (primaryStrategy secondaryStrategy formatName : String) :
    PyDict.sumValues (determineDeckComposition primaryStrategy secondaryStrategy formatName) =
      if (pyLower primaryStrategy) = "aggro" then 56 else 57 := by
  unfold determineDeckComposition
  simp only [ite_self, intTrunc_36_06, intTrunc_36_005, intTrunc_36_015, intTrunc_36_01,
    intTrunc_36_025, intTrunc_36_03, intTrunc_36_02, intTrunc_36_045, intTrunc_36_04]
  by_cases h1 : (pyLower primaryStrategy) = "aggro"
  · simp only [if_pos h1]; decide
  · simp only [if_neg h1]
    by_cases h2 : (pyLower primaryStrategy) = "control"
    · simp only [if_pos h2]; decide
    · simp only [if_neg h2]
      by_cases h3 : (pyLower primaryStrategy) = "midrange"
      · simp only [if_pos h3]; decide
      · simp only [if_neg h3]
        by_cases h4 : (pyLower primaryStrategy) = "combo"
        · simp only [if_pos h4]; decide
        · simp only [if_neg h4]; decide

/-- C3: the claim (and the spec) say format "commander" selects 100 total
cards with 38 lands.  The source's conditionals at
services/deck_constructor.py:125-126 are degenerate (`36 if commander else
36`, `24 if commander else 24`), so commander gets the same 36-non-land /
24-land budget as everything else: the Land entry is 24 and the whole
composition sums to 56 for aggro. -/
theorem c3_commander_composition_totals :
    PyDict.get (determineDeckComposition "aggro" "" "commander") "Land" = some 24 ∧
      PyDict.sumValues (determineDeckComposition "aggro" "" "commander") = 56 := by
  constructor
  · simp only [determineDeckComposition, ite_self, intTrunc_36_06, intTrunc_36_005,
      intTrunc_36_015, intTrunc_36_01]
    decide
  · simp only [determineDeckComposition, ite_self, intTrunc_36_06, intTrunc_36_005,
      intTrunc_36_015, intTrunc_36_01]
    decide

/-- C5 counterexample: a declared color with zero total pips makes
`_distribute_lands` raise ZeroDivisionError in the `color_proportions`
comprehension (rag/mana_base_calculator.py:96), so it does not "never raise"
and there is no even-split fallback. -/
theorem c5_distribute_lands_raises_counterexample :
    distributeLands emptyLandCategories 24 ["R"] [("R", 0)] =
      Except.error PyErr.zeroDivisionError := by
  have h : (List.map Prod.snd [("R", (0 : ℚ))]).sum = 0 ∧ (["R"] : List String) ≠ [] :=
    ⟨by simp, by simp⟩
  simp only [distributeLands]
  rw [if_pos h]

/-- C5 amended: `_distribute_lands` returns a distribution exactly when the
declared color list is non-empty and the total colored pips are nonzero; with
declared colors and zero pips it raises ZeroDivisionError, and with an empty
color list it raises IndexError at `deck_colors[0]`. -/
theorem c5_distribute_lands_ok_iff (landCategories : LandCategories) (totalLandCount : Int)
    (deckColors : List String) (manaRequirements : List (String × ℚ)) :
    (distributeLands landCategories totalLandCount deckColors manaRequirements).isOk =
      (!deckColors.isEmpty && !((manaRequirements.map Prod.snd).sum == 0)) := by
  unfold distributeLands
  by_cases h0 : (manaRequirements.map Prod.snd).sum = 0 ∧ deckColors ≠ []
  · rw [if_pos h0]
    obtain ⟨hs, hc⟩ := h0
    cases deckColors with
    | nil => exact absurd rfl hc
    | cons c cs => simp [Except.isOk, Except.toBool, hs]
  · rw [if_neg h0]
    by_cases h1 : 1 < deckColors.length
    · rw [if_pos h1]
      cases deckColors with
      | nil => simp at h1
      | cons c cs =>
          have hs : ¬ (manaRequirements.map Prod.snd).sum = 0 := by
            intro hz; exact h0 ⟨hz, by simp⟩
          simp [Except.isOk, Except.toBool, hs]
    · rw [if_neg h1]
      cases deckColors with
      | nil => simp [Except.isOk, Except.toBool]
      | cons c cs =>
          have hs : ¬ (manaRequirements.map Prod.snd).sum = 0 := by
            intro hz; exact h0 ⟨hz, by simp⟩
          simp [Except.isOk, Except.toBool, hs]

/-- C8 counterexample: the land count is not the claimed step function — for
format "modern" with average mana value exactly 4.0 (requirements {"W": 4})
the source computes `22 + round((4.0 - 2.5) * 2) = 25`, not the claimed 26. -/
theorem c8_land_count_counterexample :
    calculateTotalLandCount 0 "modern" [("W", 4)] = Except.ok 25 ∧
      (25 : Int) ≠ 26 := by
  constructor
  · simp only [calculateTotalLandCount]
    rw [if_neg (by decide : ¬ ([("W", (4 : ℚ))].length = 0))]
    rw [show (List.map Prod.snd [("W", (4 : ℚ))]).sum / (([("W", (4 : ℚ))].length : ℚ)) = 4
      by simp]
    rw [pyRound_eq_of (((4 : ℚ) - 5 / 2) * 2) 3 (by norm_num) (by norm_num) (by norm_num)]
    rfl
  · decide

/-- C8 amended: the land count is the format base (standard 24, modern 22,
commander 38, legacy 20, vintage 18, default 24, compared lower-cased) plus
`round((avg_cmc - 2.5) * 2)`; for average mana value exactly 4.0 the result
is 25 in modern and 41 in commander (commander is not fixed at 38), and an
empty requirements dict raises ZeroDivisionError. -/
theorem c8_land_count_amended (spellCount : Int) (manaRequirements : List (String × ℚ))
    (hne : manaRequirements ≠ [])
    (havg : (manaRequirements.map Prod.snd).sum / (manaRequirements.length : ℚ) = 4) :
    calculateTotalLandCount spellCount "modern" manaRequirements = Except.ok 25 ∧
      calculateTotalLandCount spellCount "commander" manaRequirements = Except.ok 41 := by
  have hlen : ¬ (manaRequirements.length = 0) := by
    simpa [List.length_eq_zero] using hne
  have hr : pyRound (((4 : ℚ) - 5 / 2) * 2) = 3 :=
    pyRound_eq_of _ _ (by norm_num) (by norm_num) (by norm_num)
  constructor
  · simp only [calculateTotalLandCount]
    rw [if_neg hlen, havg, hr]
    rfl
  · simp only [calculateTotalLandCount]
    rw [if_neg hlen, havg, hr]
    rfl

/-- C8 witness: the amended theorem applied at requirements {"W": 4}. -/
theorem c8_land_count_amended_witness :
    calculateTotalLandCount 0 "modern" [("W", 4)] = Except.ok 25 ∧
      calculateTotalLandCount 0 "commander" [("W", 4)] = Except.ok 41 :=
  c8_land_count_amended 0 [("W", 4)] (by simp) (by simp)

/-- C4 counterexample: the claimed floor-plus-remainder allocation does not
exist in the source; basics get `round(remaining * share)` each
(rag/mana_base_calculator.py:117), so for three colors with equal pips and a
total land count of 4 the distribution sums to 3, not 4 — even though the
input is non-degenerate (three colors, three pips). -/
theorem c4_distribute_lands_sum_counterexample :
    Except.map PyDict.sumValues
      (distributeLands emptyLandCategories 4 ["W", "U", "B"] [("W", 1), ("U", 1), ("B", 1)]) =
        Except.ok 3 ∧ (3 : Int) ≠ 4 := by
  constructor
  · have hsum : (List.map Prod.snd [("W", (1 : ℚ)), ("U", 1), ("B", 1)]).sum = 3 := by norm_num
    simp only [distributeLands]
    rw [if_neg (fun h => by rw [hsum] at h; exact absurd h.1 (by norm_num))]
    rw [if_pos (show 1 < (["W", "U", "B"] : List String).length by simp)]
    simp only [emptyLandCategories, pySliceTo, pyFloorDiv]
    simp [PyDict.sumValues, PyDict.getD, PyDict.get, PyDict.set, Except.map, addOneLand]
    rw [pyRound_eq_of ((4 : ℚ) * ((1 : ℚ) + (1 + 1))⁻¹) 1 (by norm_num) (by norm_num)
      (by norm_num)]
    norm_num
  · decide

/-- C4 amended: only the mono-color branch of `_distribute_lands` is exact:
for a single declared color with nonzero total pips the distribution sums to
exactly the total land count (the remainder is dumped on the color's basic
land); for two or more colors the basics are allocated by
`round(remaining × share)`, which can leave the total short, and with nonzero
colors but zero pips the routine raises instead of returning. -/
theorem c4_mono_color_mana_base_sums (landCategories : LandCategories) (totalLandCount : Int)
    (color : String) (manaRequirements : List (String × ℚ))
    (hpips : (manaRequirements.map Prod.snd).sum ≠ 0) :
    Except.map PyDict.sumValues
      (distributeLands landCategories totalLandCount [color] manaRequirements) =
      Except.ok totalLandCount := by
  simp only [distributeLands]
  rw [if_neg (fun h => hpips h.1)]
  rw [if_neg (show ¬ 1 < ([color] : List String).length by simp)]
  simp only [Except.map]
  rw [PyDict.sumValues_set_getD_add]
  congr 1
  omega

/-- C4 witness: the amended theorem applied to a mono-red deck with two red
pips and 24 lands. -/
theorem c4_mono_color_mana_base_sums_witness :
    ((List.map Prod.snd [("R", (2 : ℚ))]).sum ≠ 0) ∧
      Except.map PyDict.sumValues
        (distributeLands emptyLandCategories 24 ["R"] [("R", 2)]) = Except.ok 24 :=
  ⟨by norm_num, c4_mono_color_mana_base_sums emptyLandCategories 24 "R" [("R", 2)] (by norm_num)⟩

theorem seedSpecific_foldl_get (lookup : String → Option Card) (formatName : String)
    (pins : List String) (d : List (String × Int)) (name : String) :
    PyDict.get (pins.foldl (seedStep lookup formatName) d) name =
      if name ∈ pins ∧ (lookup name).any (fun c => isCardLegal c formatName) = true
      then some 1 else PyDict.get d name := by
  induction pins generalizing d with
  | nil => simp
  | cons p ps ih =>
      rw [List.foldl_cons, ih (seedStep lookup formatName d p)]
      by_cases hmem : name ∈ ps ∧ (lookup name).any (fun c => isCardLegal c formatName) = true
      · rw [if_pos hmem, if_pos ⟨List.mem_cons_of_mem p hmem.1, hmem.2⟩]
      · rw [if_neg hmem]
        by_cases hpn : p = name
        · subst hpn
          cases hl : lookup p with
          | none =>
              rw [if_neg (fun h => by simpa using h.2)]
              simp [seedStep, hl]
          | some c =>
              by_cases hleg : isCardLegal c formatName = true
              · rw [if_pos ⟨List.mem_cons_self p ps, by simp [hl, hleg]⟩]
                simp [seedStep, hl, hleg, PyDict.get_set]
              · rw [if_neg (fun h => hleg (by simpa using h.2))]
                simp [seedStep, hl, hleg]
        · have hstep : PyDict.get (seedStep lookup formatName d p) name = PyDict.get d name := by
            unfold seedStep
            cases hl : lookup p with
            | none => rfl
            | some c =>
                by_cases hleg : isCardLegal c formatName = true
                · simp only [hleg, if_true, PyDict.get_set]
                  rw [if_neg (fun h => hpn h.symm)]
                · simp [hleg]
          rw [hstep]
          rw [if_neg (fun h => by
            rcases List.mem_cons.mp h.1 with h1 | h1
            · exact hpn h1.symm
            · exact hmem ⟨h1, h.2⟩)]

/-- C10: a pinned card is seeded at quantity 1 exactly when the card database
returns a record for it and `_is_card_legal` passes
(services/deck_constructor.py:38-43), and a record with no "legality" field
is treated as legal (services/deck_constructor.py:295-297). -/
theorem c10_pinned_card_seeding :
    (∀ (lookup : String → Option Card) (pins : List String) (formatName name : String),
      PyDict.get (seedSpecificCards lookup pins formatName) name =
        if name ∈ pins ∧ (lookup name).any (fun c => isCardLegal c formatName) = true
        then some 1 else none) ∧
    (∀ (name : String) (types supertypes : List String) (formatName : String),
      isCardLegal ⟨name, types, supertypes, none⟩ formatName = true) := by
  constructor
  · intro lookup pins formatName name
    unfold seedSpecificCards
    rw [seedSpecific_foldl_get]
    rfl
  · intro name types supertypes formatName
    rfl

theorem adjustStep_invariant (lookup : String → Option Card) (maxCopies minCards : Int)
    (deck0 : List (String × Int)) (st : List (String × Int) × Int) (name : String)
    (hname : name ∈ PyDict.keys deck0)
    (hq : ∀ n q, PyDict.get st.1 n = some q → 1 ≤ q)
    (hsame : ∀ x, (PyDict.get st.1 x).isSome = (PyDict.get deck0 x).isSome) :
    (∀ n q, PyDict.get (adjustStep lookup maxCopies minCards st name).1 n = some q → 1 ≤ q) ∧
    (∀ x, (PyDict.get (adjustStep lookup maxCopies minCards st name).1 x).isSome =
      (PyDict.get deck0 x).isSome) := by
  obtain ⟨deck, cur⟩ := st
  simp only [adjustStep]
  split_ifs with h1 h2
  · exact ⟨hq, hsame⟩
  · exact ⟨hq, hsame⟩
  · have hpres : (PyDict.get deck name).isSome = true := by
      rw [hsame name]
      exact PyDict.get_isSome_of_mem_keys deck0 name hname
    obtain ⟨q0, hq0⟩ := Option.isSome_iff_exists.mp hpres
    have h10 : 1 ≤ q0 := hq name q0 hq0
    have hk : 0 ≤ max 0 (min (maxCopies - PyDict.getD deck name 0) (minCards - cur)) :=
      le_max_left 0 _
    constructor
    · intro n q hn
      simp only at hn
      rw [PyDict.get_set] at hn
      by_cases hnn : n = name
      · rw [if_pos hnn] at hn
        have : PyDict.getD deck name 0 = q0 := by simp [PyDict.getD, hq0]
        rw [this] at hn
        have hqe : q0 + max 0 (min (maxCopies - q0) (minCards - cur)) = q := by
          have := Option.some.inj hn
          omega
        have := le_max_left (0 : Int) (min (maxCopies - q0) (minCards - cur))
        omega
      · rw [if_neg hnn] at hn
        exact hq n q hn
    · intro x
      simp only
      rw [PyDict.get_set]
      by_cases hx : x = name
      · rw [if_pos hx, hx]
        rw [← hsame name]
        rw [hq0]
        rfl
      · rw [if_neg hx]
        exact hsame x

theorem adjustFold_invariant (lookup : String → Option Card) (maxCopies minCards : Int)
    (deck0 : List (String × Int)) :
    ∀ (names : List String) (st : List (String × Int) × Int),
      (∀ m ∈ names, m ∈ PyDict.keys deck0) →
      (∀ n q, PyDict.get st.1 n = some q → 1 ≤ q) →
      (∀ x, (PyDict.get st.1 x).isSome = (PyDict.get deck0 x).isSome) →
      (∀ n q,
        PyDict.get (names.foldl (adjustStep lookup maxCopies minCards) st).1 n = some q →
          1 ≤ q) := by
  intro names
  induction names with
  | nil => intro st _ hq _; simpa using hq
  | cons m ms ih =>
      intro st hmem hq hsame
      rw [List.foldl_cons]
      have hstep := adjustStep_invariant lookup maxCopies minCards deck0 st m
        (hmem m (List.mem_cons_self m ms)) hq hsame
      exact ih (adjustStep lookup maxCopies minCards st m)
        (fun x hx => hmem x (List.mem_cons_of_mem m hx)) hstep.1 hstep.2

theorem adjustPhase1_qty (lookup : String → Option Card) (maxCopies minCards : Int)
    (deck : List (String × Int)) (h : ∀ n q, PyDict.get deck n = some q → 1 ≤ q) :
    ∀ n q, PyDict.get (adjustPhase1 lookup maxCopies minCards deck).1 n = some q → 1 ≤ q := by
  simp only [adjustPhase1]
  by_cases hc : PyDict.sumValues deck < minCards
  · rw [if_pos hc]
    exact adjustFold_invariant lookup maxCopies minCards deck (PyDict.keys deck)
      (deck, PyDict.sumValues deck) (fun m hm => hm) h (fun x => rfl)
  · rw [if_neg hc]
    exact h

theorem qty_or_basic_set (d : List (String × Int)) (k : String) (v : Int)
    (h : ∀ n q, PyDict.get d n = some q → 1 ≤ q ∨ isBasicLand n = true)
    (hk : isBasicLand k = true) :
    ∀ n q, PyDict.get (PyDict.set d k v) n = some q → 1 ≤ q ∨ isBasicLand n = true := by
  intro n q hn
  rw [PyDict.get_set] at hn
  by_cases hnk : n = k
  · rw [hnk]; exact Or.inr hk
  · rw [if_neg hnk] at hn
    exact h n q hn

theorem roundRobin_qty_or_basic (basicLands : List String) :
    ∀ (fuel landIndex : Nat) (d : List (String × Int)),
      (∀ n q, PyDict.get d n = some q → 1 ≤ q ∨ isBasicLand n = true) →
      ∀ n q, PyDict.get (roundRobin basicLands d fuel landIndex) n = some q →
        1 ≤ q ∨ isBasicLand n = true := by
  intro fuel
  induction fuel with
  | zero => intro landIndex d h; simpa [roundRobin] using h
  | succ m ih =>
      intro landIndex d h
      rw [roundRobin]
      apply ih
      intro n q hn
      rw [PyDict.get_set] at hn
      by_cases hnn : n = basicLands.getD (landIndex % basicLands.length) ""
      · rw [if_pos hnn] at hn
        cases hg : PyDict.get d (basicLands.getD (landIndex % basicLands.length) "") with
        | none =>
            have hz : PyDict.getD d (basicLands.getD (landIndex % basicLands.length) "") 0 = 0 := by
              unfold PyDict.getD
              rw [hg]
              rfl
            rw [hz] at hn
            left
            have := Option.some.inj hn
            omega
        | some w =>
            have hd : PyDict.getD d (basicLands.getD (landIndex % basicLands.length) "") 0 = w := by
              unfold PyDict.getD
              rw [hg]
              rfl
            rw [hd] at hn
            rcases h _ w hg with hw | hb
            · left
              have := Option.some.inj hn
              omega
            · right
              rw [hnn]
              exact hb
      · rw [if_neg hnn] at hn
        exact h n q hn

theorem adjustPhase2_qty_or_basic (minCards : Int) (st : List (String × Int) × Int)
    (h : ∀ n q, PyDict.get st.1 n = some q → 1 ≤ q) :
    ∀ n q, PyDict.get (adjustPhase2 minCards st) n = some q → 1 ≤ q ∨ isBasicLand n = true := by
  simp only [adjustPhase2]
  split_ifs with hc hb
  · apply roundRobin_qty_or_basic
    apply qty_or_basic_set _ _ _ _ (show isBasicLand "Forest" = true by decide)
    apply qty_or_basic_set _ _ _ _ (show isBasicLand "Mountain" = true by decide)
    apply qty_or_basic_set _ _ _ _ (show isBasicLand "Swamp" = true by decide)
    apply qty_or_basic_set _ _ _ _ (show isBasicLand "Island" = true by decide)
    apply qty_or_basic_set _ _ _ _ (show isBasicLand "Plains" = true by decide)
    exact fun n q hq => Or.inl (h n q hq)
  · apply roundRobin_qty_or_basic
    exact fun n q hq => Or.inl (h n q hq)
  · exact fun n q hq => Or.inl (h n q hq)

/-- C9 counterexample: with 14 distinct cards already at the 4-copy cap
(56 cards) and no basic lands, the normalizer creates five zero-quantity
basic-land placeholders and then adds only the 4 missing cards, so "Forest"
survives in the returned mapping with quantity 0 — the claim that every
entry of the result is ≥ 1 is false. -/
theorem c9_zero_quantity_counterexample :
    PyDict.get (adjustQuantities (fun _ => none)
      [("A1", 4), ("A2", 4), ("A3", 4), ("A4", 4), ("A5", 4), ("A6", 4), ("A7", 4),
       ("A8", 4), ("A9", 4), ("A10", 4), ("A11", 4), ("A12", 4), ("A13", 4), ("A14", 4)]
      "standard") "Forest" = some 0 := by
  decide

/-- C9 amended: every entry of the decklist returned by `_adjust_quantities`
has quantity ≥ 1 (given an input decklist whose entries are all ≥ 1) except
possibly the five basic-land names, whose zero-quantity placeholders survive
when fewer than five cards are needed to reach the minimum. -/
theorem c9_adjust_quantities_amended (lookup : String → Option Card)
    (deck : List (String × Int)) (formatName : String)
    (h : ∀ n q, PyDict.get deck n = some q → 1 ≤ q) :
    ∀ n q, PyDict.get (adjustQuantities lookup deck formatName) n = some q →
      1 ≤ q ∨ isBasicLand n = true := by
  unfold adjustQuantities
  exact adjustPhase2_qty_or_basic (minCardsOf formatName)
    (adjustPhase1 lookup (maxCopiesOf formatName) (minCardsOf formatName) deck)
    (adjustPhase1_qty lookup (maxCopiesOf formatName) (minCardsOf formatName) deck h)

/-- C9 witness: the amended theorem applied to the deck {"Bolt": 4} in
standard, at the output entry "Bolt" (quantity 4). -/
theorem c9_adjust_quantities_amended_witness :
    (1 : Int) ≤ 4 ∨ isBasicLand "Bolt" = true :=
  c9_adjust_quantities_amended (fun _ => none) [("Bolt", 4)] "standard"
    (by
      intro n q hq
      by_cases hn : n = "Bolt" <;> simp [PyDict.get, hn] at hq <;> omega)
    "Bolt" 4 (by decide)

theorem getPrimaryType_mem (c : Card) (h : getPrimaryType c ≠ "Other") :
    getPrimaryType c ∈ primaryTypesList := by
  unfold getPrimaryType at h ⊢
  cases hf : primaryTypesList.find? (fun ptype => c.types.contains ptype) with
  | none => rw [hf] at h; exact absurd rfl h
  | some t => exact List.mem_of_find?_eq_some hf

theorem comp_keys (primaryStrategy secondaryStrategy formatName : String) :
    PyDict.keys (determineDeckComposition primaryStrategy secondaryStrategy formatName) =
      primaryTypesList := by
  unfold determineDeckComposition
  simp only [ite_self]
  split_ifs <;> rfl

theorem comp_get_isSome (primaryStrategy secondaryStrategy formatName t : String)
    (ht : t ∈ primaryTypesList) :
    (PyDict.get (determineDeckComposition primaryStrategy secondaryStrategy formatName) t).isSome =
      true :=
  PyDict.get_isSome_of_mem_keys _ t (by rw [comp_keys]; exact ht)

theorem get_map_zero_isSome (d : List (String × Int)) (k : String) :
    (PyDict.get (d.map (fun p => (p.1, (0 : Int)))) k).isSome = (PyDict.get d k).isSome := by
  induction d with
  | nil => rfl
  | cons hd tl ih =>
      obtain ⟨k1, v1⟩ := hd
      by_cases h : k = k1 <;> simp [PyDict.get, h, ih]

theorem seedAddedCounts_ok (lookup : String → Option Card) :
    ∀ (existing : List (String × Int)) (ac : List (String × Int)),
      (∀ n q, (n, q) ∈ existing → ∀ c, lookup n = some c → getPrimaryType c ≠ "Other") →
      (∀ t ∈ primaryTypesList, (PyDict.get ac t).isSome = true) →
      ∃ ac2, seedAddedCounts lookup existing ac = Except.ok ac2 ∧
        (∀ t ∈ primaryTypesList, (PyDict.get ac2 t).isSome = true) := by
  intro existing
  induction existing with
  | nil => intro ac _ hac; exact ⟨ac, rfl, hac⟩
  | cons e rest ih =>
      obtain ⟨n, q⟩ := e
      intro ac hex hac
      cases hl : lookup n with
      | none =>
          simp only [seedAddedCounts, hl]
          exact ih ac (fun n' q' h' => hex n' q' (List.mem_cons_of_mem _ h')) hac
      | some c =>
          have hne := hex n q (List.mem_cons_self _ _) c hl
          have hmem := getPrimaryType_mem c hne
          obtain ⟨v, hv⟩ := Option.isSome_iff_exists.mp (hac (getPrimaryType c) hmem)
          simp only [seedAddedCounts, hl, hv]
          exact ih (PyDict.set ac (getPrimaryType c) (v + q))
            (fun n' q' h' => hex n' q' (List.mem_cons_of_mem _ h'))
            (fun t ht => by
              rw [PyDict.get_set]
              by_cases htt : t = getPrimaryType c
              · rw [if_pos htt]; rfl
              · rw [if_neg htt]; exact hac t ht)

theorem selectFromGroup_ok (maxCopies : Int) (t : String) (scores : List (String × ℚ))
    (comp : List (String × Int)) (ht : t ∈ primaryTypesList)
    (hcomp : ∀ u ∈ primaryTypesList, (PyDict.get comp u).isSome = true) :
    ∀ (cards : List Card) (deck ac : List (String × Int)),
      (∀ u ∈ primaryTypesList, (PyDict.get ac u).isSome = true) →
      ∃ deck2 ac2,
        selectFromGroup maxCopies t scores comp cards deck ac = Except.ok (deck2, ac2) ∧
        (∀ u ∈ primaryTypesList, (PyDict.get ac2 u).isSome = true) := by
  intro cards
  induction cards with
  | nil => intro deck ac hac; exact ⟨deck, ac, rfl, hac⟩
  | cons card rest ih =>
      intro deck ac hac
      obtain ⟨acv, hacv⟩ := Option.isSome_iff_exists.mp (hac t ht)
      obtain ⟨compv, hcompv⟩ := Option.isSome_iff_exists.mp (hcomp t ht)
      simp only [selectFromGroup, hacv, hcompv]
      by_cases h1 : compv ≤ acv
      · rw [if_pos h1]
        exact ⟨deck, ac, rfl, hac⟩
      · rw [if_neg h1]
        by_cases h2 : PyDict.contains deck card.name = true
        · rw [if_pos h2]
          exact ih deck ac hac
        · rw [if_neg h2]
          by_cases h3 : (0.8 : ℚ) < PyDict.getD scores card.name 0
          · rw [if_pos h3]
            apply ih
            intro u hu
            rw [PyDict.get_set]
            by_cases hut : u = t
            · rw [if_pos hut]; rfl
            · rw [if_neg hut, PyDict.get_set, if_neg hut]
              exact hac u hu
          · rw [if_neg h3]
            apply ih
            intro u hu
            rw [PyDict.get_set]
            by_cases hut : u = t
            · rw [if_pos hut]; rfl
            · rw [if_neg hut]
              exact hac u hu

theorem selectGroups_ok (maxCopies : Int) (scores : List (String × ℚ))
    (comp : List (String × Int))
    (hcomp : ∀ u ∈ primaryTypesList, (PyDict.get comp u).isSome = true) :
    ∀ (groups : List (String × List Card)) (deck ac : List (String × Int)),
      (∀ tc ∈ groups, (tc : String × List Card).1 = "Land" ∨ tc.1 ∈ primaryTypesList) →
      (∀ u ∈ primaryTypesList, (PyDict.get ac u).isSome = true) →
      ∃ deck2 ac2,
        selectGroups maxCopies scores comp groups deck ac = Except.ok (deck2, ac2) := by
  intro groups
  induction groups with
  | nil => intro deck ac _ _; exact ⟨deck, ac, rfl⟩
  | cons g rest ih =>
      obtain ⟨t, cards⟩ := g
      intro deck ac hg hac
      simp only [selectGroups]
      by_cases hL : t = "Land"
      · rw [if_pos hL]
        exact ih deck ac (fun tc h => hg tc (List.mem_cons_of_mem _ h)) hac
      · rw [if_neg hL]
        have ht : t ∈ primaryTypesList :=
          (hg (t, cards) (List.mem_cons_self _ _)).resolve_left hL
        obtain ⟨d2, a2, hok, ha2⟩ := selectFromGroup_ok maxCopies t scores comp ht hcomp
          (sortedBySynergyDesc scores cards) deck ac hac
        rw [hok]
        exact ih d2 a2 (fun tc h => hg tc (List.mem_cons_of_mem _ h)) ha2

theorem mem_keys_groupInsert (k : String) (c : Card) (t : String) :
    ∀ gs : List (String × List Card),
      t ∈ PyDict.keys (groupInsert gs k c) → t = k ∨ t ∈ PyDict.keys gs := by
  intro gs
  induction gs with
  | nil =>
      intro h
      simp [groupInsert, PyDict.keys] at h
      exact Or.inl h
  | cons g rest ih =>
      obtain ⟨k1, cs⟩ := g
      by_cases hk : k1 = k
      · intro h
        simp only [groupInsert, if_pos hk] at h
        simp only [PyDict.keys, List.map_cons] at h ⊢
        rcases List.mem_cons.mp h with h1 | h1
        · exact Or.inl (h1.trans hk)
        · exact Or.inr (List.mem_cons_of_mem _ h1)
      · intro h
        simp only [groupInsert, if_neg hk] at h
        simp only [PyDict.keys, List.map_cons] at h ⊢
        rcases List.mem_cons.mp h with h1 | h1
        · exact Or.inr (List.mem_cons.mpr (Or.inl h1))
        · rcases ih h1 with h2 | h2
          · exact Or.inl h2
          · exact Or.inr (List.mem_cons.mpr (Or.inr h2))

theorem groups_keys_from_pool (cardPool : List Card) :
    ∀ (gs : List (String × List Card)) (t : String),
      t ∈ PyDict.keys
        (cardPool.foldl (fun groups c => groupInsert groups (getPrimaryType c) c) gs) →
      t ∈ PyDict.keys gs ∨ ∃ c ∈ cardPool, getPrimaryType c = t := by
  induction cardPool with
  | nil => intro gs t h; exact Or.inl h
  | cons c rest ih =>
      intro gs t h
      rw [List.foldl_cons] at h
      rcases ih (groupInsert gs (getPrimaryType c) c) t h with h1 | h1
      · rcases mem_keys_groupInsert (getPrimaryType c) c t gs h1 with h2 | h2
        · exact Or.inr ⟨c, List.mem_cons_self _ _, h2.symm⟩
        · exact Or.inl h2
      · obtain ⟨c', hc', ht'⟩ := h1
        exact Or.inr ⟨c', List.mem_cons_of_mem _ hc', ht'⟩

/-- C6 counterexample: a pool card whose type list matches none of the seven
precedence types groups under "Other", and `_select_cards` then evaluates
`added_counts["Other"]` (services/deck_constructor.py:213), a key the
`added_counts` dict (built from the composition's seven keys) does not have:
KeyError, not a normal return. -/
theorem c6_select_cards_other_keyerror :
    selectCards (fun _ => none) [] (groupCardsByType [⟨"Weird", ["Conspiracy"], [], none⟩]) []
      (determineDeckComposition "aggro" "" "standard") "standard" =
      Except.error (PyErr.keyError "Other") := by
  rfl

/-- C6 amended: `_select_cards` returns without raising whenever every pool
card and every resolvable pre-seeded card has a primary type among the seven
precedence types (i.e. none classifies as "Other"); a card classifying as
"Other" instead raises KeyError. -/
theorem c6_select_cards_no_other_ok (lookup : String → Option Card)
    (existing : List (String × Int)) (cardPool : List Card)
    (scores : List (String × ℚ)) (primaryStrategy secondaryStrategy compFormat fmt : String)
    (hpool : ∀ c ∈ cardPool, getPrimaryType c ≠ "Other")
    (hex : ∀ n q, (n, q) ∈ existing → ∀ c, lookup n = some c → getPrimaryType c ≠ "Other") :
    (selectCards lookup existing (groupCardsByType cardPool) scores
      (determineDeckComposition primaryStrategy secondaryStrategy compFormat) fmt).isOk =
      true := by
  have hcomp : ∀ u ∈ primaryTypesList,
      (PyDict.get (determineDeckComposition primaryStrategy secondaryStrategy compFormat)
        u).isSome = true :=
    fun u hu => comp_get_isSome primaryStrategy secondaryStrategy compFormat u hu
  have hac0 : ∀ u ∈ primaryTypesList,
      (PyDict.get ((determineDeckComposition primaryStrategy secondaryStrategy compFormat).map
        (fun p => (p.1, (0 : Int)))) u).isSome = true :=
    fun u hu => by rw [get_map_zero_isSome]; exact hcomp u hu
  have hgroups : ∀ tc ∈ groupCardsByType cardPool,
      (tc : String × List Card).1 = "Land" ∨ tc.1 ∈ primaryTypesList := by
    intro tc htc
    have hk : tc.1 ∈ PyDict.keys (groupCardsByType cardPool) :=
      List.mem_map.mpr ⟨tc, htc, rfl⟩
    rcases groups_keys_from_pool cardPool [] tc.1 hk with h1 | h1
    · simp [PyDict.keys] at h1
    · obtain ⟨c, hc, hct⟩ := h1
      right
      rw [← hct]
      exact getPrimaryType_mem c (hpool c hc)
  obtain ⟨ac1, hseed, hac1⟩ := seedAddedCounts_ok lookup existing _ hex hac0
  obtain ⟨d2, a2, hsel⟩ := selectGroups_ok (maxCopiesOf fmt) scores _ hcomp
    (groupCardsByType cardPool) existing ac1 hgroups hac1
  simp only [selectCards, hseed, hsel]
  rfl

/-- C6 witness: the amended theorem applied to a pool holding one creature
and an empty pre-seeded deck. -/
theorem c6_select_cards_no_other_ok_witness :
    (selectCards (fun _ => none) [] (groupCardsByType [bearCard]) []
      (determineDeckComposition "aggro" "" "standard") "standard").isOk = true :=
  c6_select_cards_no_other_ok (fun _ => none) [] [bearCard] [] "aggro" "" "standard" "standard"
    (by decide) (fun n q h => absurd h (List.not_mem_nil _))

theorem selectFromGroup_deckOk (existing : List (String × Int)) (maxCopies : Int) (t : String)
    (scores : List (String × ℚ)) (comp : List (String × Int)) (hmc : 1 ≤ maxCopies) :
    ∀ (cards : List Card) (deck ac deck2 ac2 : List (String × Int)),
      selectFromGroup maxCopies t scores comp cards deck ac = Except.ok (deck2, ac2) →
      (∀ n q, PyDict.get existing n = none → PyDict.get deck n = some q →
        1 ≤ q ∧ q ≤ maxCopies) →
      (∀ n q, PyDict.get existing n = none → PyDict.get deck2 n = some q →
        1 ≤ q ∧ q ≤ maxCopies) := by
  intro cards
  induction cards with
  | nil =>
      intro deck ac deck2 ac2 hok hdeck
      simp only [selectFromGroup] at hok
      obtain ⟨h1, h2⟩ := Prod.mk.injEq .. ▸ Except.ok.inj hok
      subst h1
      exact hdeck
  | cons card rest ih =>
      intro deck ac deck2 ac2 hok hdeck
      simp only [selectFromGroup] at hok
      split at hok
      · exact Except.noConfusion hok
      · rename_i acv hacv
        split at hok
        · exact Except.noConfusion hok
        · rename_i compv hcompv
          split_ifs at hok with h1 h2 h3
          · obtain ⟨hd, ha⟩ := Prod.mk.injEq .. ▸ Except.ok.inj hok
            subst hd
            exact hdeck
          · exact ih deck ac deck2 ac2 hok hdeck
          · apply ih _ _ _ _ hok
            intro n q hn hq
            rw [PyDict.get_set] at hq
            by_cases hnn : n = card.name
            · rw [if_pos hnn] at hq
              have hgd : PyDict.getD (PyDict.set deck card.name 1) card.name 0 = 1 := by
                unfold PyDict.getD
                rw [PyDict.get_set, if_pos rfl]
                rfl
              rw [hgd] at hq
              have hq' := Option.some.inj hq
              have ha1 : min (maxCopies - 1) (compv - (acv + 1)) ≤ maxCopies - 1 :=
                min_le_left _ _
              have ha2 : (0 : Int) ≤ min (maxCopies - 1) (compv - (acv + 1)) :=
                le_min (by omega) (by omega)
              omega
            · rw [if_neg hnn, PyDict.get_set, if_neg hnn] at hq
              exact hdeck n q hn hq
          · apply ih _ _ _ _ hok
            intro n q hn hq
            rw [PyDict.get_set] at hq
            by_cases hnn : n = card.name
            · rw [if_pos hnn] at hq
              have hq' := Option.some.inj hq
              omega
            · rw [if_neg hnn] at hq
              exact hdeck n q hn hq

theorem selectGroups_deckOk (existing : List (String × Int)) (maxCopies : Int)
    (scores : List (String × ℚ)) (comp : List (String × Int)) (hmc : 1 ≤ maxCopies) :
    ∀ (groups : List (String × List Card)) (deck ac deck2 ac2 : List (String × Int)),
      selectGroups maxCopies scores comp groups deck ac = Except.ok (deck2, ac2) →
      (∀ n q, PyDict.get existing n = none → PyDict.get deck n = some q →
        1 ≤ q ∧ q ≤ maxCopies) →
      (∀ n q, PyDict.get existing n = none → PyDict.get deck2 n = some q →
        1 ≤ q ∧ q ≤ maxCopies) := by
  intro groups
  induction groups with
  | nil =>
      intro deck ac deck2 ac2 hok hdeck
      simp only [selectGroups] at hok
      obtain ⟨h1, h2⟩ := Prod.mk.injEq .. ▸ Except.ok.inj hok
      subst h1
      exact hdeck
  | cons g rest ih =>
      obtain ⟨t, cards⟩ := g
      intro deck ac deck2 ac2 hok hdeck
      simp only [selectGroups] at hok
      split_ifs at hok with hL
      · exact ih deck ac deck2 ac2 hok hdeck
      · split at hok
        · exact Except.noConfusion hok
        · rename_i d1 a1 heq
          exact ih d1 a1 deck2 ac2 hok
            (selectFromGroup_deckOk existing maxCopies t scores comp hmc
              (sortedBySynergyDesc scores cards) deck ac d1 a1 heq hdeck)

theorem one_le_maxCopiesOf (formatName : String) : 1 ≤ maxCopiesOf formatName := by
  unfold maxCopiesOf
  split_ifs <;> decide

/-- C7: every entry `_select_cards` adds (an output key absent from the
pre-seeded deck) has quantity between 1 and max_copies(format); in commander
max_copies is 1, so the bonus-copy rule for synergy above 0.8 contributes
nothing and such a card stays at one copy.  (This holds for every
composition, with or without the claim's pre-seeding restriction: the
target-reached check at services/deck_constructor.py:213 keeps the bonus-copy
headroom nonnegative.) -/
theorem c7_select_cards_quantity_bounds (lookup : String → Option Card)
    (existing : List (String × Int)) (cardGroups : List (String × List Card))
    (scores : List (String × ℚ)) (comp : List (String × Int)) (formatName : String)
    (d : List (String × Int)) (n : String) (q : Int)
    (hok : selectCards lookup existing cardGroups scores comp formatName = Except.ok d)
    (hnew : PyDict.get existing n = none)
    (hq : PyDict.get d n = some q) :
    1 ≤ q ∧ q ≤ maxCopiesOf formatName := by
  simp only [selectCards] at hok
  split at hok
  · exact Except.noConfusion hok
  · rename_i ac1 heq1
    split at hok
    · exact Except.noConfusion hok
    · rename_i st d2 a2 heq2
      have hd : d2 = d := Except.ok.inj hok
      subst hd
      exact selectGroups_deckOk existing (maxCopiesOf formatName) scores comp
        (one_le_maxCopiesOf formatName) cardGroups existing ac1 d2 a2 heq2
        (fun n' q' hn' hq' => by rw [hn'] at hq'; exact Option.noConfusion hq')
        n q hnew hq

theorem selectCards_bear_eval :
    selectCards (fun _ => none) [] (groupCardsByType [bearCard]) [] [("Creature", 2)]
      "standard" = Except.ok [("Bear", 1)] := by
  have hsyn : ¬ ((0.8 : ℚ) < 0) := by norm_num
  simp [selectCards, seedAddedCounts, selectGroups, selectFromGroup, groupCardsByType,
    groupInsert, getPrimaryType, primaryTypesList, sortedBySynergyDesc, insertDesc,
    PyDict.get, PyDict.set, PyDict.getD, PyDict.contains, bearCard, hsyn]

/-- C7 witness: the theorem applied to a one-creature pool selected into an
empty pre-seeded deck in standard ("Bear" enters at quantity 1 ∈ [1, 4]). -/
theorem c7_select_cards_quantity_bounds_witness :
    (selectCards (fun _ => none) [] (groupCardsByType [bearCard]) [] [("Creature", 2)]
        "standard" = Except.ok [("Bear", 1)]) ∧
      (1 ≤ (1 : Int) ∧ (1 : Int) ≤ maxCopiesOf "standard") :=
  ⟨selectCards_bear_eval,
   c7_select_cards_quantity_bounds (fun _ => none) [] (groupCardsByType [bearCard]) []
     [("Creature", 2)] "standard" [("Bear", 1)] "Bear" 1 selectCards_bear_eval rfl rfl⟩
